import Mathlib

/-!
Verification of the zero-copy buffer pool (`zc_pool_new`, `zc_pool_checkout`,
`zc_pool_checkin`, `zc_pool_free`) declared in
`src/packages/zero-copy-utils/include/zero_copy.h`.

The repository ships only the public header; the pool semantics below are
modelled from the specification (spec.md sections 3 to 7): a fixed arena of
`capacity * buffer_size` bytes, a LIFO free list of slot indices, slot `i`
living at address `arena_base + i * buffer_size`, checked-multiplication at
creation, and full validation on checkin.  Addresses and sizes are modelled
as natural numbers; `SIZE_MAX` bounds the size arithmetic of `size_t`.
-/

namespace ZeroCopy

/-- Largest value of the C type `size_t` on the 64-bit targets the header
(`stdint.h`, `stddef.h`) is written for. -/
def SIZE_MAX : Nat := 2 ^ 64 - 1

/-- Modelled from the spec: the `BufferPool` entity of spec.md section 3.
The implementation behind the opaque `zc_buffer_pool_t` is not in the
repository; fields follow the data model verbatim.  `free_list` is the
LIFO free set of slot indices (head = most recently freed slot, per the
mandated LIFO reuse policy of section 4.2). -/
structure Pool where
  capacity : Nat
  buffer_size : Nat
  arena_base : Nat
  free_list : List Nat
  deriving Repr, DecidableEq

/-- Address of slot `i`: `arena_base + i * buffer_size` (spec.md section 3). -/
def slot_addr (p : Pool) (i : Nat) : Nat :=
  p.arena_base + i * p.buffer_size

/-- Errors reported by pool creation (spec.md section 7). -/
inductive CreateError where
  | InvalidArgument
  | AllocationFailure
  deriving Repr, DecidableEq

/-- Result of a checkout: an address, or the distinguished exhaustion signal. -/
inductive CheckoutResult where
  | address (a : Nat)
  | Exhausted
  deriving Repr, DecidableEq

/-- Status returned by checkin and destroy (spec.md section 6). -/
inductive ZcStatus where
  | Ok
  | UsageError
  deriving Repr, DecidableEq

/-- Modelled from the spec: `zc_pool_new` (section 4.1).  The allocator is an
oracle mapping a requested byte count to a base address, or `none` when the
request cannot be satisfied.  Arguments are validated first, the product
`capacity * buffer_size` is checked against `SIZE_MAX` rather than wrapping,
and only then is the allocator consulted.  The free set starts holding all
`capacity` slot indices in ascending order. -/
def zc_pool_new (alloc : Nat → Option Nat) (capacity buffer_size : Nat) :
    Except CreateError Pool :=
  if capacity = 0 ∨ buffer_size = 0 then
    Except.error CreateError.InvalidArgument
  else if SIZE_MAX < capacity * buffer_size then
    Except.error CreateError.AllocationFailure
  else
    match alloc (capacity * buffer_size) with
    | none => Except.error CreateError.AllocationFailure
    | some base =>
        Except.ok
          { capacity := capacity
            buffer_size := buffer_size
            arena_base := base
            free_list := List.range capacity }

/-- Modelled from the spec: `zc_pool_checkout` (section 4.2).  Pops the most
recently freed slot from the free list and returns its address; when the
free list is empty it returns `Exhausted` immediately, leaving the pool
unchanged. -/
def zc_pool_checkout (p : Pool) : CheckoutResult × Pool :=
  match p.free_list with
  | [] => (CheckoutResult.Exhausted, p)
  | i :: rest => (CheckoutResult.address (slot_addr p i), { p with free_list := rest })

/-- Modelled from the spec: `zc_pool_checkin` (section 4.3).  Validates that
the address lies inside the arena, is aligned to a `buffer_size` boundary
from the arena base, and denotes a slot that is currently checked out; any
violation is a `UsageError` that leaves the pool untouched.  On success the
slot is pushed onto the free list. -/
def zc_pool_checkin (p : Pool) (a : Nat) : ZcStatus × Pool :=
  if a < p.arena_base then
    (ZcStatus.UsageError, p)
  else if p.capacity * p.buffer_size ≤ a - p.arena_base then
    (ZcStatus.UsageError, p)
  else if (a - p.arena_base) % p.buffer_size ≠ 0 then
    (ZcStatus.UsageError, p)
  else if (a - p.arena_base) / p.buffer_size ∈ p.free_list then
    (ZcStatus.UsageError, p)
  else
    (ZcStatus.Ok, { p with free_list := (a - p.arena_base) / p.buffer_size :: p.free_list })

/-- Derived value of spec.md section 3: `capacity - |free_set|`. -/
def outstanding_count (p : Pool) : Nat :=
  p.capacity - p.free_list.length

/-- Modelled from the spec: `zc_pool_free` (section 4.4).  Destruction
requires `outstanding_count == 0`; destroying with buffers still checked out
is detected and reported as a usage error instead of freeing the arena. -/
def zc_pool_free (p : Pool) : ZcStatus :=
  if outstanding_count p = 0 then ZcStatus.Ok else ZcStatus.UsageError

/-! ### The C surface of the header

`zc_pool_new` is declared in the header as returning `zc_buffer_pool_t*`,
so at the C interface every creation failure is observable only as a null
pointer, modelled as `none`.  `zc_pool_checkin` and `zc_pool_free` are
declared `void`, so their outcome is not observable in the return value at
all, modelled as `Unit`. -/

/-- The header-level view of `zc_pool_new`: a nullable pool handle. -/
def zc_pool_new_c (alloc : Nat → Option Nat) (capacity buffer_size : Nat) :
    Option Pool :=
  (zc_pool_new alloc capacity buffer_size).toOption

/-- The header-level view of `zc_pool_checkin`: `void` return, state update only. -/
def zc_pool_checkin_c (p : Pool) (a : Nat) : Unit × Pool :=
  ((), (zc_pool_checkin p a).2)

/-- The header-level view of `zc_pool_free`: `void` return. -/
def zc_pool_free_c (_p : Pool) : Unit :=
  ()

/-! ### Operation sequences and ghost-instrumented execution -/

/-- One caller-visible mutating operation on a pool. -/
inductive Op where
  | checkout
  | checkin (a : Nat)
  deriving Repr, DecidableEq

/-- A pool together with the ghost list of slot indices currently checked
out (returned by `zc_pool_checkout` and not yet successfully checked in). -/
structure GState where
  pool : Pool
  owned : List Nat
  deriving Repr, DecidableEq

/-- Ghost-instrumented step: performs the operation on the pool and keeps
the `owned` list in sync (a successful checkout moves the popped slot into
`owned`; a successful checkin removes the returned slot from `owned`). -/
def gstep (g : GState) : Op → GState
  | Op.checkout =>
      match g.pool.free_list with
      | [] => g
      | i :: rest => ⟨{ g.pool with free_list := rest }, i :: g.owned⟩
  | Op.checkin a =>
      if (zc_pool_checkin g.pool a).1 = ZcStatus.Ok then
        ⟨(zc_pool_checkin g.pool a).2,
         g.owned.erase ((a - g.pool.arena_base) / g.pool.buffer_size)⟩
      else
        ⟨(zc_pool_checkin g.pool a).2, g.owned⟩

/-- Run a sequence of operations from a ghost state. -/
def grun (g : GState) : List Op → GState
  | [] => g
  | op :: ops => grun (gstep g op) ops

/-! ### The reachability invariant

The free list together with the ghost list of checked-out slots is always a
permutation of all `capacity` slot indices.  From this single fact the
mutual-exclusion, conservation and bounds invariants of spec.md section 3
all follow. -/

/-- Invariant: `free_list` and `owned` jointly hold each slot index exactly once. -/
def Inv (g : GState) : Prop :=
  List.Perm (g.pool.free_list ++ g.owned) (List.range g.pool.capacity)

theorem inv_initial (p : Pool) (h : p.free_list = List.range p.capacity) :
    Inv ⟨p, []⟩ := by
  simp [Inv, h]

theorem zc_pool_new_ok (alloc : Nat → Option Nat) (c b : Nat) (p : Pool)
    (h : zc_pool_new alloc c b = Except.ok p) :
    0 < c ∧ 0 < b ∧ p.capacity = c ∧ p.buffer_size = b ∧
      p.free_list = List.range c ∧ alloc (c * b) = some p.arena_base := by
  unfold zc_pool_new at h
  split at h
  · exact absurd h (by simp)
  · next hzero =>
    split at h
    · exact absurd h (by simp)
    · rw [not_or] at hzero
      obtain ⟨hc, hb⟩ := hzero
      refine ⟨Nat.pos_of_ne_zero hc, Nat.pos_of_ne_zero hb, ?_⟩
      cases halloc : alloc (c * b) with
      | none => rw [halloc] at h; exact absurd h (by simp)
      | some base =>
          rw [halloc] at h
          simp only [Except.ok.injEq] at h
          subst h
          exact ⟨rfl, rfl, rfl, rfl⟩

/-- A slot accepted by checkin validation is a legal index below capacity. -/
theorem checkin_ok_slot_lt (p : Pool) (a : Nat)
    (hhigh : a - p.arena_base < p.capacity * p.buffer_size) :
    (a - p.arena_base) / p.buffer_size < p.capacity := by
  exact Nat.div_lt_of_lt_mul (by rwa [Nat.mul_comm] at hhigh)

/-- Complete case analysis of checkin: either some validation condition
fails and the call reports a usage error leaving the pool untouched, or all
conditions hold and the slot is pushed onto the free list. -/
theorem zc_pool_checkin_spec (p : Pool) (a : Nat) :
    zc_pool_checkin p a = (ZcStatus.UsageError, p) ∨
      (p.arena_base ≤ a ∧ a - p.arena_base < p.capacity * p.buffer_size ∧
        (a - p.arena_base) % p.buffer_size = 0 ∧
        (a - p.arena_base) / p.buffer_size ∉ p.free_list ∧
        zc_pool_checkin p a =
          (ZcStatus.Ok,
           { p with free_list := (a - p.arena_base) / p.buffer_size :: p.free_list })) := by
  unfold zc_pool_checkin
  split_ifs with h1 h2 h3 h4
  · exact Or.inl rfl
  · exact Or.inl rfl
  · exact Or.inl rfl
  · exact Or.inl rfl
  · exact Or.inr ⟨Nat.le_of_not_lt h1, Nat.lt_of_not_le h2, not_not.mp h3, h4, rfl⟩

/-- The pool geometry (capacity, buffer size, arena base) is never changed
by a step; only the free list mutates. -/
theorem gstep_geometry (g : GState) (op : Op) :
    (gstep g op).pool.capacity = g.pool.capacity ∧
      (gstep g op).pool.buffer_size = g.pool.buffer_size ∧
      (gstep g op).pool.arena_base = g.pool.arena_base := by
  cases op with
  | checkout =>
      cases hfl : g.pool.free_list with
      | nil => simp [gstep, hfl]
      | cons i rest => simp [gstep, hfl]
  | checkin a =>
      rcases zc_pool_checkin_spec g.pool a with hcase | ⟨_, _, _, _, hcase⟩ <;>
        simp [gstep, hcase]

theorem grun_geometry (ops : List Op) (g : GState) :
    (grun g ops).pool.capacity = g.pool.capacity ∧
      (grun g ops).pool.buffer_size = g.pool.buffer_size ∧
      (grun g ops).pool.arena_base = g.pool.arena_base := by
  induction ops generalizing g with
  | nil => exact ⟨rfl, rfl, rfl⟩
  | cons op ops ih =>
      obtain ⟨h1, h2, h3⟩ := ih (gstep g op)
      obtain ⟨k1, k2, k3⟩ := gstep_geometry g op
      exact ⟨h1.trans k1, h2.trans k2, h3.trans k3⟩

/-- One step preserves the invariant. -/
theorem inv_gstep (g : GState) (op : Op) (h : Inv g) : Inv (gstep g op) := by
  cases op with
  | checkout =>
      cases hfl : g.pool.free_list with
      | nil => simpa [gstep, hfl]
      | cons i rest =>
          unfold Inv at h ⊢
          simp only [gstep, hfl]
          rw [hfl] at h
          exact List.perm_middle.trans h
  | checkin a =>
      rcases zc_pool_checkin_spec g.pool a with hcase | ⟨hlow, hhigh, halign, hnotfree, hcase⟩
      · unfold Inv at h ⊢
        simp only [gstep, hcase]
        simpa using h
      · unfold Inv at h ⊢
        simp only [gstep, hcase]
        have hlt : (a - g.pool.arena_base) / g.pool.buffer_size < g.pool.capacity :=
          checkin_ok_slot_lt g.pool a hhigh
        have hmem : (a - g.pool.arena_base) / g.pool.buffer_size ∈
            g.pool.free_list ++ g.owned := h.mem_iff.mpr (List.mem_range.mpr hlt)
        have howned : (a - g.pool.arena_base) / g.pool.buffer_size ∈ g.owned :=
          (List.mem_append.mp hmem).resolve_left hnotfree
        refine List.Perm.trans ?_ h
        refine List.Perm.trans List.perm_middle.symm ?_
        exact List.Perm.append_left _ (List.perm_cons_erase howned).symm

/-- The invariant holds in every state reachable by a run. -/
theorem inv_grun (ops : List Op) (g : GState) (h : Inv g) : Inv (grun g ops) := by
  induction ops generalizing g with
  | nil => exact h
  | cons op ops ih => exact ih (gstep g op) (inv_gstep g op h)

theorem inv_length (g : GState) (h : Inv g) :
    g.pool.free_list.length + g.owned.length = g.pool.capacity := by
  have hl := h.length_eq
  simpa using hl

theorem inv_nodup (g : GState) (h : Inv g) :
    (g.pool.free_list ++ g.owned).Nodup :=
  h.symm.nodup (List.nodup_range _)

theorem inv_disjoint (g : GState) (h : Inv g) :
    ∀ i ∈ g.pool.free_list, i ∉ g.owned := by
  have hd := (List.nodup_append.mp (inv_nodup g h)).2.2
  exact fun _ hf ho => hd hf ho

theorem inv_free_lt (g : GState) (h : Inv g) :
    ∀ i ∈ g.pool.free_list, i < g.pool.capacity := fun _ hf =>
  List.mem_range.mp (h.mem_iff.mp (List.mem_append_left _ hf))

/-- The invariant holds right after a successful creation. -/
theorem inv_after_new (alloc : Nat → Option Nat) (c b : Nat) (p0 : Pool)
    (hnew : zc_pool_new alloc c b = Except.ok p0) : Inv ⟨p0, []⟩ := by
  obtain ⟨-, -, hc, -, hfl, -⟩ := zc_pool_new_ok alloc c b p0 hnew
  exact inv_initial p0 (by rw [hfl, hc])

/-- Complete case analysis of checkout: exhaustion on an empty free list,
otherwise the head slot is popped and its address returned. -/
theorem zc_pool_checkout_spec (p : Pool) :
    (p.free_list = [] ∧ zc_pool_checkout p = (CheckoutResult.Exhausted, p)) ∨
      (∃ i rest, p.free_list = i :: rest ∧
        zc_pool_checkout p =
          (CheckoutResult.address (slot_addr p i), { p with free_list := rest })) := by
  cases hfl : p.free_list with
  | nil => exact Or.inl ⟨rfl, by simp [zc_pool_checkout, hfl]⟩
  | cons i rest => exact Or.inr ⟨i, rest, rfl, by simp [zc_pool_checkout, hfl]⟩

/-- Checkin reports a usage error, pool untouched, when any validation
condition fails: address below the arena, address at or past the arena end,
misalignment, or a slot that is already free. -/
theorem zc_pool_checkin_error (p : Pool) (a : Nat)
    (h : a < p.arena_base ∨ p.arena_base + p.capacity * p.buffer_size ≤ a ∨
      (a - p.arena_base) % p.buffer_size ≠ 0 ∨
      (a - p.arena_base) / p.buffer_size ∈ p.free_list) :
    zc_pool_checkin p a = (ZcStatus.UsageError, p) := by
  unfold zc_pool_checkin
  split_ifs with h1 h2 h3 h4
  · rfl
  · rfl
  · rfl
  · rfl
  · exfalso
    rcases h with hb | hb | hb | hb
    · exact h1 hb
    · exact h2 (Nat.le_sub_of_add_le (by rwa [Nat.add_comm] at hb))
    · exact h3 hb
    · exact h4 hb

/-- Checkin succeeds and pushes the slot onto the free list when the address
is in bounds, aligned, and its slot is currently checked out. -/
theorem zc_pool_checkin_success (p : Pool) (a : Nat)
    (h : p.arena_base ≤ a ∧ a < p.arena_base + p.capacity * p.buffer_size ∧
      (a - p.arena_base) % p.buffer_size = 0 ∧
      (a - p.arena_base) / p.buffer_size ∉ p.free_list) :
    zc_pool_checkin p a =
      (ZcStatus.Ok,
       { p with free_list := (a - p.arena_base) / p.buffer_size :: p.free_list }) := by
  obtain ⟨hl, hh, ha, hf⟩ := h
  unfold zc_pool_checkin
  rw [if_neg (Nat.not_lt.mpr hl),
    if_neg (Nat.not_le.mpr ((tsub_lt_iff_left hl).mpr hh)),
    if_neg (not_not_intro ha), if_neg hf]

/-! ### Concrete pools used to witness the claims -/

/-- A demo allocator that always places the arena at address 4096. -/
def allocDemo : Nat → Option Nat := fun _ => some 4096

/-- The capacity-1, 64-byte pool produced by `zc_pool_new allocDemo 1 64`. -/
def pool1 : Pool :=
  { capacity := 1, buffer_size := 64, arena_base := 4096, free_list := [0] }

/-- `pool1` with its single slot checked out. -/
def pool1e : Pool :=
  { capacity := 1, buffer_size := 64, arena_base := 4096, free_list := [] }

/-! ### The claims -/

/-- C2: checkin returns a usage error and leaves the pool unchanged whenever
the address is below the arena base, at or beyond the arena end, misaligned
with respect to `buffer_size`, or denotes a slot that is currently free;
it succeeds and pushes the slot onto the free list exactly when all the
validation conditions hold; and checking the same address in twice without
an intervening checkout makes the second call fail with a usage error,
leaving the pool unchanged. -/
theorem checkin_validation (p : Pool) (a : Nat) :
    ((a < p.arena_base ∨ p.arena_base + p.capacity * p.buffer_size ≤ a ∨
        (a - p.arena_base) % p.buffer_size ≠ 0 ∨
        (a - p.arena_base) / p.buffer_size ∈ p.free_list) →
      zc_pool_checkin p a = (ZcStatus.UsageError, p)) ∧
    ((p.arena_base ≤ a ∧ a < p.arena_base + p.capacity * p.buffer_size ∧
        (a - p.arena_base) % p.buffer_size = 0 ∧
        (a - p.arena_base) / p.buffer_size ∉ p.free_list) →
      zc_pool_checkin p a =
        (ZcStatus.Ok,
         { p with free_list := (a - p.arena_base) / p.buffer_size :: p.free_list })) ∧
    (∀ p' : Pool, zc_pool_checkin p a = (ZcStatus.Ok, p') →
      zc_pool_checkin p' a = (ZcStatus.UsageError, p')) := by
  refine ⟨zc_pool_checkin_error p a, zc_pool_checkin_success p a, ?_⟩
  intro p' hok
  rcases zc_pool_checkin_spec p a with hcase | ⟨-, -, -, -, hcase⟩
  · rw [hok] at hcase
    exact absurd (congrArg Prod.fst hcase) (by simp)
  · rw [hok] at hcase
    have hp : p' = { p with free_list := (a - p.arena_base) / p.buffer_size :: p.free_list } :=
      congrArg Prod.snd hcase
    subst hp
    exact zc_pool_checkin_error _ a (Or.inr (Or.inr (Or.inr (List.mem_cons_self _ _))))

/-- Witness for C2 at concrete inputs: checking the single buffer of a
capacity-1 pool back in succeeds, and a second checkin of the same address
is rejected as a double free. -/
theorem checkin_validation_witness :
    zc_pool_checkin pool1e 4096 = (ZcStatus.Ok, pool1) ∧
      zc_pool_checkin pool1 4096 = (ZcStatus.UsageError, pool1) := by
  have h1 := (checkin_validation pool1e 4096).2.1 (by decide)
  have h1e : zc_pool_checkin pool1e 4096 = (ZcStatus.Ok, pool1) := by rw [h1]; rfl
  exact ⟨h1e, (checkin_validation pool1e 4096).2.2 pool1 h1e⟩

/-- C4: checkout on a pool whose free set is empty does not wait; it returns
the distinguished Exhausted result immediately and leaves the pool state
unchanged. -/
theorem checkout_exhausted_nonblocking (p : Pool) (h : p.free_list = []) :
    zc_pool_checkout p = (CheckoutResult.Exhausted, p) := by
  simp [zc_pool_checkout, h]

/-- Witness for C4: the exhausted capacity-1 pool. -/
theorem checkout_exhausted_nonblocking_witness :
    zc_pool_checkout pool1e = (CheckoutResult.Exhausted, pool1e) :=
  checkout_exhausted_nonblocking pool1e rfl

/-- C5: creation with a zero capacity or zero buffer size fails with
InvalidArgument, and does so before any allocation (the outcome is the same
under every allocator); an overflowing `capacity * buffer_size` product is
detected by the checked multiplication and reported as an allocation-class
failure rather than wrapping; an allocator refusal is reported as
AllocationFailure.  In each case the result is an error carrying no pool,
so no partially constructed state escapes. -/
theorem create_error_handling (alloc : Nat → Option Nat) (c b : Nat) :
    ((c = 0 ∨ b = 0) →
      zc_pool_new alloc c b = Except.error CreateError.InvalidArgument ∧
      ∀ alloc2 : Nat → Option Nat, zc_pool_new alloc2 c b = zc_pool_new alloc c b) ∧
    (SIZE_MAX < c * b →
      ∀ alloc2 : Nat → Option Nat,
        zc_pool_new alloc2 c b = Except.error CreateError.AllocationFailure) ∧
    (alloc (c * b) = none → c ≠ 0 → b ≠ 0 →
      zc_pool_new alloc c b = Except.error CreateError.AllocationFailure) := by
  refine ⟨?_, ?_, ?_⟩
  · intro hz
    have h : ∀ alloc2 : Nat → Option Nat,
        zc_pool_new alloc2 c b = Except.error CreateError.InvalidArgument := by
      intro alloc2
      unfold zc_pool_new
      rw [if_pos hz]
    exact ⟨h alloc, fun alloc2 => (h alloc2).trans (h alloc).symm⟩
  · intro hover alloc2
    have hz : ¬ (c = 0 ∨ b = 0) := by
      rintro (rfl | rfl) <;> simp [SIZE_MAX] at hover
    unfold zc_pool_new
    rw [if_neg hz, if_pos hover]
  · intro hnone hc hb
    unfold zc_pool_new
    rw [if_neg (by simp [hc, hb])]
    split_ifs with hover
    · rfl
    · rw [hnone]

/-- Witness for C5: zero capacity, the overflowing `SIZE_MAX * 2` product,
and an allocator that refuses, each at concrete inputs. -/
theorem create_error_handling_witness :
    zc_pool_new allocDemo 0 64 = Except.error CreateError.InvalidArgument ∧
      zc_pool_new allocDemo SIZE_MAX 2 = Except.error CreateError.AllocationFailure ∧
      zc_pool_new (fun _ => none) 4 64 = Except.error CreateError.AllocationFailure :=
  ⟨((create_error_handling allocDemo 0 64).1 (Or.inl rfl)).1,
   (create_error_handling allocDemo SIZE_MAX 2).2.1 (by norm_num [SIZE_MAX]) allocDemo,
   (create_error_handling (fun _ => none) 4 64).2.2 rfl (by norm_num) (by norm_num)⟩

/-- C9: at the C interface of the header, `zc_pool_new` reports failure only
through a null `zc_buffer_pool_t*`; an InvalidArgument failure and an
AllocationFailure are therefore both observed as `none` and cannot be told
apart by the caller. -/
theorem create_failures_collapse_to_null (alloc1 alloc2 : Nat → Option Nat)
    (c1 b1 c2 b2 : Nat)
    (h1 : zc_pool_new alloc1 c1 b1 = Except.error CreateError.InvalidArgument)
    (h2 : zc_pool_new alloc2 c2 b2 = Except.error CreateError.AllocationFailure) :
    zc_pool_new_c alloc1 c1 b1 = none ∧ zc_pool_new_c alloc2 c2 b2 = none ∧
      zc_pool_new_c alloc1 c1 b1 = zc_pool_new_c alloc2 c2 b2 := by
  unfold zc_pool_new_c
  rw [h1, h2]
  exact ⟨rfl, rfl, rfl⟩

/-- Witness for C9: a zero-capacity call and a refused allocation. -/
theorem create_failures_collapse_to_null_witness :
    zc_pool_new_c allocDemo 0 64 = none ∧
      zc_pool_new_c (fun _ => none) 4 64 = none ∧
      zc_pool_new_c allocDemo 0 64 = zc_pool_new_c (fun _ => none) 4 64 :=
  create_failures_collapse_to_null allocDemo (fun _ => none) 0 64 4 64 rfl rfl

/-- C10: `zc_pool_checkin` and `zc_pool_free` are declared `void` in the
header, so their return carries no information: the value returned by a
checkin that succeeds equals the value returned by a checkin that is a
usage error, and likewise for destroy, so no UsageError outcome can reach
the caller through the return value. -/
theorem void_returns_hide_usage_errors (p q r s : Pool) (a c : Nat)
    (_h1 : (zc_pool_checkin p a).1 = ZcStatus.Ok)
    (_h2 : (zc_pool_checkin q c).1 = ZcStatus.UsageError)
    (_h3 : zc_pool_free r = ZcStatus.Ok)
    (_h4 : zc_pool_free s = ZcStatus.UsageError) :
    (zc_pool_checkin_c p a).1 = (zc_pool_checkin_c q c).1 ∧
      zc_pool_free_c r = zc_pool_free_c s := by
  exact ⟨rfl, rfl⟩

/-- Witness for C10: a succeeding checkin versus a double free, and a clean
destroy versus a destroy with one outstanding buffer, all indistinguishable
at the C return type. -/
theorem void_returns_hide_usage_errors_witness :
    (zc_pool_checkin_c pool1e 4096).1 = (zc_pool_checkin_c pool1 4096).1 ∧
      zc_pool_free_c pool1 = zc_pool_free_c pool1e :=
  void_returns_hide_usage_errors pool1e pool1 pool1 pool1e 4096 4096
    (by decide) (by decide) (by decide) (by decide)

/-- A capacity-2, 64-byte pool as produced by `zc_pool_new allocDemo 2 64`. -/
def pool2 : Pool :=
  { capacity := 2, buffer_size := 64, arena_base := 4096, free_list := [0, 1] }

/-- C3: along every sequence of checkout and checkin operations starting
from a freshly created pool, the number of free slots plus the number of
outstanding checked-out slots equals the creation capacity, and the free
set never exceeds the capacity. -/
theorem capacity_conservation (alloc : Nat → Option Nat) (c b : Nat) (p0 : Pool)
    (ops : List Op) (hnew : zc_pool_new alloc c b = Except.ok p0) :
    (grun ⟨p0, []⟩ ops).pool.free_list.length + (grun ⟨p0, []⟩ ops).owned.length = c ∧
      (grun ⟨p0, []⟩ ops).pool.free_list.length ≤ c := by
  have hinv := inv_grun ops ⟨p0, []⟩ (inv_after_new alloc c b p0 hnew)
  have hlen := inv_length _ hinv
  obtain ⟨-, -, hc, -, -, -⟩ := zc_pool_new_ok alloc c b p0 hnew
  have hcap : (grun ⟨p0, []⟩ ops).pool.capacity = c :=
    ((grun_geometry ops ⟨p0, []⟩).1).trans hc
  rw [hcap] at hlen
  exact ⟨hlen, Nat.le.intro hlen⟩

/-- Witness for C3: one checkout on the capacity-1 pool. -/
theorem capacity_conservation_witness :
    (grun ⟨pool1, []⟩ [Op.checkout]).pool.free_list.length +
        (grun ⟨pool1, []⟩ [Op.checkout]).owned.length = 1 ∧
      (grun ⟨pool1, []⟩ [Op.checkout]).pool.free_list.length ≤ 1 :=
  capacity_conservation allocDemo 1 64 pool1 [Op.checkout] rfl

/-- C1: in any state reached from a freshly created pool by a sequence of
operations, an address returned by a further checkout never coincides with
the address of any slot that is still checked out (returned by an earlier
checkout and not yet successfully checked in): the pool never hands the
same address to a second caller while the first checkout is outstanding. -/
theorem checkout_no_double_issue (alloc : Nat → Option Nat) (c b : Nat) (p0 : Pool)
    (ops : List Op) (a j : Nat)
    (hnew : zc_pool_new alloc c b = Except.ok p0)
    (hco : (zc_pool_checkout (grun ⟨p0, []⟩ ops).pool).1 = CheckoutResult.address a)
    (hj : j ∈ (grun ⟨p0, []⟩ ops).owned) :
    a ≠ slot_addr (grun ⟨p0, []⟩ ops).pool j := by
  have hinv := inv_grun ops ⟨p0, []⟩ (inv_after_new alloc c b p0 hnew)
  rcases zc_pool_checkout_spec (grun ⟨p0, []⟩ ops).pool with ⟨-, hres⟩ | ⟨i, rest, hfl, hres⟩
  · rw [hres] at hco
    exact absurd hco (by simp)
  · rw [hres] at hco
    have ha : slot_addr (grun ⟨p0, []⟩ ops).pool i = a := by
      simpa using hco
    have hiP : i ∈ (grun ⟨p0, []⟩ ops).pool.free_list := hfl ▸ List.mem_cons_self i rest
    have hij : i ≠ j := fun he => inv_disjoint _ hinv i hiP (he ▸ hj)
    have hb : 0 < (grun ⟨p0, []⟩ ops).pool.buffer_size := by
      obtain ⟨-, hb0, -, hbs, -, -⟩ := zc_pool_new_ok alloc c b p0 hnew
      rw [(grun_geometry ops ⟨p0, []⟩).2.1, hbs]
      exact hb0
    intro he
    apply hij
    have heq : slot_addr (grun ⟨p0, []⟩ ops).pool i =
        slot_addr (grun ⟨p0, []⟩ ops).pool j := by rw [ha, he]
    unfold slot_addr at heq
    exact Nat.eq_of_mul_eq_mul_right hb (Nat.add_left_cancel heq)

/-- Witness for C1: on a capacity-2 pool with slot 0 checked out, the next
checkout returns the address of slot 1, not the outstanding address. -/
theorem checkout_no_double_issue_witness :
    (4160 : Nat) ≠ slot_addr (grun ⟨pool2, []⟩ [Op.checkout]).pool 0 :=
  checkout_no_double_issue allocDemo 2 64 pool2 [Op.checkout] 4160 0
    rfl (by decide) (by decide)

/-- C6: starting from a freshly created pool, destroy succeeds exactly when
no checkout is outstanding; with any buffer still checked out the condition
is detected and reported as a usage error instead of freeing the arena. -/
theorem destroy_requires_all_returned (alloc : Nat → Option Nat) (c b : Nat) (p0 : Pool)
    (ops : List Op) (hnew : zc_pool_new alloc c b = Except.ok p0) :
    ((grun ⟨p0, []⟩ ops).owned = [] →
      zc_pool_free (grun ⟨p0, []⟩ ops).pool = ZcStatus.Ok) ∧
    ((grun ⟨p0, []⟩ ops).owned ≠ [] →
      zc_pool_free (grun ⟨p0, []⟩ ops).pool = ZcStatus.UsageError) := by
  have hinv := inv_grun ops ⟨p0, []⟩ (inv_after_new alloc c b p0 hnew)
  have hlen := inv_length _ hinv
  constructor
  · intro hemp
    have h0 : (grun ⟨p0, []⟩ ops).owned.length = 0 := by rw [hemp]; rfl
    unfold zc_pool_free outstanding_count
    rw [if_pos (by omega)]
  · intro hne
    have hpos : 0 < (grun ⟨p0, []⟩ ops).owned.length := List.length_pos.mpr hne
    unfold zc_pool_free outstanding_count
    rw [if_neg (by omega)]

/-- Witness for C6: creating the capacity-1 pool and destroying it with no
checkouts succeeds. -/
theorem destroy_requires_all_returned_witness :
    zc_pool_free (grun ⟨pool1, []⟩ []).pool = ZcStatus.Ok :=
  (destroy_requires_all_returned allocDemo 1 64 pool1 [] rfl).1 rfl

/-- C7: every address a successful checkout can return, in any state
reachable from a freshly created pool, is `arena_base + i * buffer_size`
for some slot index `i < capacity`; hence it lies inside the arena and is
aligned to a `buffer_size` boundary from the arena base. -/
theorem checkout_address_in_arena (alloc : Nat → Option Nat) (c b : Nat) (p0 : Pool)
    (ops : List Op) (a : Nat)
    (hnew : zc_pool_new alloc c b = Except.ok p0)
    (hco : (zc_pool_checkout (grun ⟨p0, []⟩ ops).pool).1 = CheckoutResult.address a) :
    (∃ i, i < c ∧ a = p0.arena_base + i * b) ∧
      p0.arena_base ≤ a ∧ a < p0.arena_base + c * b ∧
      (a - p0.arena_base) % b = 0 := by
  have hinv := inv_grun ops ⟨p0, []⟩ (inv_after_new alloc c b p0 hnew)
  obtain ⟨-, hb0, hc, hbs, -, -⟩ := zc_pool_new_ok alloc c b p0 hnew
  obtain ⟨hgc, hgb, hga⟩ := grun_geometry ops ⟨p0, []⟩
  rcases zc_pool_checkout_spec (grun ⟨p0, []⟩ ops).pool with ⟨-, hres⟩ | ⟨i, rest, hfl, hres⟩
  · rw [hres] at hco
    exact absurd hco (by simp)
  · rw [hres] at hco
    have ha : slot_addr (grun ⟨p0, []⟩ ops).pool i = a := by simpa using hco
    have hiP : i ∈ (grun ⟨p0, []⟩ ops).pool.free_list := hfl ▸ List.mem_cons_self i rest
    have hic : i < c := by
      have := inv_free_lt _ hinv i hiP
      rwa [hgc, hc] at this
    have haeq : a = p0.arena_base + i * b := by
      rw [← ha]
      unfold slot_addr
      rw [hgb, hga, hbs]
    refine ⟨⟨i, hic, haeq⟩, ?_, ?_, ?_⟩
    · rw [haeq]; exact Nat.le_add_right _ _
    · rw [haeq]
      exact Nat.add_lt_add_left (mul_lt_mul_of_pos_right hic (hbs ▸ hb0)) _
    · rw [haeq, Nat.add_sub_cancel_left, Nat.mul_mod_left]

/-- Witness for C7: the first checkout on the capacity-1 pool returns the
arena base itself. -/
theorem checkout_address_in_arena_witness :
    (∃ i, i < 1 ∧ (4096 : Nat) = pool1.arena_base + i * 64) ∧
      pool1.arena_base ≤ 4096 ∧ (4096 : Nat) < pool1.arena_base + 1 * 64 ∧
      ((4096 : Nat) - pool1.arena_base) % 64 = 0 :=
  checkout_address_in_arena allocDemo 1 64 pool1 [] 4096 rfl (by decide)

/-- C8: on the capacity-1 pool the first checkout succeeds with the arena
base address, a second checkout before any checkin is Exhausted, and after
checking the address back in a further checkout returns the same address;
in general, slot selection is LIFO: immediately after any successful
checkin, the next checkout returns exactly the address just checked in. -/
theorem exhaustion_recovery_lifo :
    (zc_pool_new allocDemo 1 64 = Except.ok pool1 ∧
      zc_pool_checkout pool1 = (CheckoutResult.address 4096, pool1e) ∧
      (zc_pool_checkout pool1e).1 = CheckoutResult.Exhausted ∧
      zc_pool_checkin pool1e 4096 = (ZcStatus.Ok, pool1) ∧
      (zc_pool_checkout pool1).1 = CheckoutResult.address 4096) ∧
    (∀ (p p' : Pool) (a : Nat), zc_pool_checkin p a = (ZcStatus.Ok, p') →
      (zc_pool_checkout p').1 = CheckoutResult.address a) := by
  constructor
  · exact ⟨rfl, by decide, by decide, by decide, by decide⟩
  · intro p p' a hok
    rcases zc_pool_checkin_spec p a with hcase | ⟨hlow, -, halign, -, hcase⟩
    · rw [hok] at hcase
      exact absurd (congrArg Prod.fst hcase) (by simp)
    · rw [hok] at hcase
      have hp : p' = { p with free_list := (a - p.arena_base) / p.buffer_size :: p.free_list } :=
        congrArg Prod.snd hcase
      subst hp
      simp only [zc_pool_checkout, slot_addr]
      rw [Nat.div_mul_cancel (Nat.dvd_of_mod_eq_zero halign),
        Nat.add_sub_cancel' hlow]

/-- Witness for C8: applying the LIFO half of the claim at the concrete
recovery step of the capacity-1 scenario. -/
theorem exhaustion_recovery_lifo_witness :
    (zc_pool_checkout pool1).1 = CheckoutResult.address 4096 :=
  exhaustion_recovery_lifo.2 pool1e pool1 4096 (by decide)

end ZeroCopy
